import Mathlib

/-!
Verification development for the SpokeOld repository.

Part 1 models the campaign-contact messaging lifecycle (message statuses,
sendMessage / inbound ingestion / opt-outs / reassignment).  The GraphQL
resolvers implementing these operations are exercised by the repository's
integration tests but their code is not part of the reviewed sources, so
the operations are modelled from the specification text and settled
against that model.

Part 2 embeds the gVIRS contact-loader plugin
(`addServerEndpoints`, `processContactLoad`), whose source is present,
directly from the code.
-/

namespace Spoke

/-- The six contact message statuses named by the spec data model. -/
inductive MessageStatus
| needsMessage
| messaged
| needsResponse
| convo
| closed
| optOut
deriving DecidableEq, Repr

/-- Direction of a message: outbound (texter to contact) or inbound. -/
inductive Direction
| outbound
| inbound
deriving DecidableEq, Repr

/-- Provider send status of a message. -/
inductive SendStatus
| PENDING
| SENT
| DELIVERED
| ERROR
deriving DecidableEq, Repr

/-- A message row: text, direction, provider status, contact number and
the assignment it was sent under. -/
structure Message where
  text : String
  direction : Direction
  send_status : SendStatus
  contact_number : String
  assignment_id : Nat
deriving DecidableEq, Repr

/-- A campaign contact row.  `messages` is the contact's message history in
chronological order; `message_status` is the stored status column. -/
structure CampaignContact where
  id : Nat
  cell : String
  campaign_id : Nat
  assignment_id : Nat
  message_status : MessageStatus
  messages : List Message
deriving DecidableEq, Repr

/-- The datastore: campaign contacts plus the set of opted-out cells. -/
structure Database where
  contacts : List CampaignContact
  optOuts : List String
deriving DecidableEq, Repr

/-- Whether an opt-out row exists for the given cell. -/
def isOptedOut (db : Database) (cell : String) : Bool :=
  db.optOuts.any (fun o => o == cell)

/-- Modelled from the spec: the status-transition rules of section 4.1
(the resolver code computing `message_status` is not among the reviewed
sources).  Opt-out overrides all other states; no messages means
`needsMessage`; a latest inbound message means `needsResponse`; an
outbound reply after an inbound message means `convo`; otherwise the
latest message is outbound with no prior inbound, giving `messaged`. -/
def deriveMessageStatus (optedOut : Bool) (messages : List Message) : MessageStatus :=
  if optedOut then .optOut
  else
    match messages.getLast? with
    | none => .needsMessage
    | some last =>
      if last.direction = .inbound then .needsResponse
      else if messages.any (fun m => m.direction == .inbound) then .convo
      else .messaged

/-- What `getAssignmentContacts` returns for one contact: the recomputed
status and the opt-out marker, alongside identity and history. -/
structure ContactView where
  id : Nat
  cell : String
  messageStatus : MessageStatus
  optOut : Option String
  messages : List Message
deriving DecidableEq, Repr

/-- Modelled from the spec: resolvers recompute status on read. -/
def viewContact (db : Database) (c : CampaignContact) : ContactView :=
  { id := c.id
    cell := c.cell
    messageStatus := deriveMessageStatus (isOptedOut db c.cell) c.messages
    optOut := if isOptedOut db c.cell then some "optout" else none
    messages := c.messages }

/-- Modelled from the spec: the `getAssignmentContacts` query resolves each
requested contact id against the store and returns the recomputed view. -/
def getAssignmentContacts (db : Database) (ids : List Nat) : List ContactView :=
  ids.filterMap (fun i => (db.contacts.find? (fun c => c.id == i)).map (viewContact db))

/-- Apply `f` to the contact with the given id, leaving the rest alone. -/
def updateContact (db : Database) (contactId : Nat) (f : CampaignContact → CampaignContact) : Database :=
  { db with contacts := db.contacts.map (fun c => if c.id == contactId then f c else c) }

/-- Append a message to a contact's history and recompute its stored status. -/
def appendMessage (db : Database) (contactId : Nat) (m : Message) : Database :=
  updateContact db contactId (fun c =>
    { c with
      messages := c.messages ++ [m]
      message_status := deriveMessageStatus (isOptedOut db c.cell) (c.messages ++ [m]) })

/-- A fresh outbound message as recorded by `sendMessage`, before the
provider has picked it up. -/
def outboundMessage (text contactNumber : String) (aid : Nat) : Message :=
  { text := text
    direction := .outbound
    send_status := .PENDING
    contact_number := contactNumber
    assignment_id := aid }

/-- An inbound message as recorded when the provider delivers a reply. -/
def inboundMessage (text contactNumber : String) (aid : Nat) : Message :=
  { text := text
    direction := .inbound
    send_status := .DELIVERED
    contact_number := contactNumber
    assignment_id := aid }

/-- Modelled from the spec: the `sendMessage` mutation records an outbound
message (provider delivery still pending), stores the recomputed status and
returns the updated contact. -/
def sendMessage (db : Database) (contactId : Nat) (contactNumber : String)
    (text : String) (aid : Nat) : Database × Option ContactView :=
  let db1 := appendMessage db contactId (outboundMessage text contactNumber aid)
  (db1, (db1.contacts.find? (fun c => c.id == contactId)).map (viewContact db1))

/-- Modelled from the spec: inbound ingestion appends a delivered inbound
message and recomputes the stored status. -/
def receiveMessage (db : Database) (contactId : Nat) (contactNumber : String)
    (text : String) (aid : Nat) : Database :=
  appendMessage db contactId (inboundMessage text contactNumber aid)

/-- Set the provider status of the last (most recently sent) message. -/
def setLastSent : List Message → List Message
  | [] => []
  | [m] => [{ m with send_status := .SENT }]
  | m :: rest => m :: setLastSent rest

/-- Modelled from the spec: the background (fake) provider marks the
contact's latest message as SENT. -/
def markLatestSent (db : Database) (contactId : Nat) : Database :=
  updateContact db contactId (fun c => { c with messages := setLastSent c.messages })

/-- Modelled from the spec: `createOptOut` records the cell in the opt-out
table and moves every contact with that cell to the `optOut` status. -/
def createOptOut (db : Database) (cell : String) : Database :=
  { contacts := db.contacts.map (fun c =>
      if c.cell == cell then { c with message_status := .optOut } else c)
    optOuts := cell :: db.optOuts }

/-- Modelled from the spec: `reassignCampaignContacts` rebinds the listed
contacts to the new assignment, touching nothing else. -/
def reassignCampaignContacts (db : Database) (contactIds : List Nat) (newAssignmentId : Nat) : Database :=
  { db with contacts := db.contacts.map (fun c =>
      if contactIds.contains c.id then { c with assignment_id := newAssignmentId } else c) }

/-- The stored status column of the contact with the given id. -/
def contactStatus (db : Database) (contactId : Nat) : Option MessageStatus :=
  (db.contacts.find? (fun c => c.id == contactId)).map (fun c => c.message_status)

/- Helper lemmas about contact lookup through an id-preserving update. -/

theorem find_map_update (l : List CampaignContact) (contactId : Nat)
    (g : CampaignContact → CampaignContact) (hg : ∀ c, (g c).id = c.id) :
    (l.map (fun c => if c.id == contactId then g c else c)).find? (fun c => c.id == contactId)
      = (l.find? (fun c => c.id == contactId)).map g := by
  induction l with
  | nil => rfl
  | cons c rest ih =>
    simp only [List.map_cons]
    by_cases h : (c.id == contactId) = true
    · rw [if_pos h]
      have hid : ((g c).id == contactId) = true := by
        rw [hg]
        exact h
      simp only [List.find?_cons, hid, h]
      rfl
    · rw [if_neg h]
      have hb : (c.id == contactId) = false := by
        simpa using h
      simp only [List.find?_cons, hb, ih]

theorem find_update (db : Database) (contactId : Nat)
    (g : CampaignContact → CampaignContact) (hg : ∀ c, (g c).id = c.id) :
    (updateContact db contactId g).contacts.find? (fun c => c.id == contactId)
      = (db.contacts.find? (fun c => c.id == contactId)).map g := by
  simpa [updateContact] using find_map_update db.contacts contactId g hg

theorem isOptedOut_updateContact (db : Database) (contactId : Nat)
    (g : CampaignContact → CampaignContact) (cell : String) :
    isOptedOut (updateContact db contactId g) cell = isOptedOut db cell := rfl

theorem getLast_concat {α : Type} (l : List α) (m : α) :
    (l ++ [m]).getLast? = some m := by
  simp [List.getLast?_append]

/-- A fresh outbound message in an empty history derives `messaged`. -/
theorem derive_single_outbound (m : Message) (hm : m.direction = .outbound) :
    deriveMessageStatus false [m] = .messaged := by
  simp [deriveMessageStatus, List.getLast?, hm]

/-- A history ending in an inbound message derives `needsResponse`. -/
theorem derive_last_inbound (msgs : List Message) (m : Message)
    (hm : m.direction = .inbound) :
    deriveMessageStatus false (msgs ++ [m]) = .needsResponse := by
  simp [deriveMessageStatus, getLast_concat, hm]

/-- An outbound message appended after an inbound one derives `convo`. -/
theorem derive_outbound_after_inbound (msgs : List Message) (m : Message)
    (hm : m.direction = .outbound)
    (hin : msgs.any (fun x => x.direction == .inbound) = true) :
    deriveMessageStatus false (msgs ++ [m]) = .convo := by
  simp [deriveMessageStatus, getLast_concat, hm, List.any_append, hin]

theorem find_appendMessage (db : Database) (contactId : Nat) (m : Message) :
    (appendMessage db contactId m).contacts.find? (fun c => c.id == contactId)
      = (db.contacts.find? (fun c => c.id == contactId)).map (fun c =>
          { c with
            messages := c.messages ++ [m]
            message_status := deriveMessageStatus (isOptedOut db c.cell) (c.messages ++ [m]) }) :=
  find_update db contactId _ (fun _ => rfl)

theorem find_markLatestSent (db : Database) (contactId : Nat) :
    (markLatestSent db contactId).contacts.find? (fun c => c.id == contactId)
      = (db.contacts.find? (fun c => c.id == contactId)).map (fun c =>
          { c with messages := setLastSent c.messages }) :=
  find_update db contactId _ (fun _ => rfl)

/-- C1: for a campaign contact with no prior message history, `sendMessage`
returns the contact with `messageStatus = messaged` and exactly one message
holding the sent text, and after the fake provider marks the message SENT
the stored `message_status` is `messaged` with the single message now in
send status SENT. -/
theorem sendMessage_needsMessage_becomes_messaged
    (db : Database) (c : CampaignContact) (t : String) (aid : Nat)
    (hfind : db.contacts.find? (fun x => x.id == c.id) = some c)
    (hmsgs : c.messages = [])
    (hopt : isOptedOut db c.cell = false) :
    (sendMessage db c.id c.cell t aid).2
        = some { id := c.id
                 cell := c.cell
                 messageStatus := .messaged
                 optOut := none
                 messages := [outboundMessage t c.cell aid] }
    ∧ contactStatus (markLatestSent (sendMessage db c.id c.cell t aid).1 c.id) c.id
        = some .messaged
    ∧ ((markLatestSent (sendMessage db c.id c.cell t aid).1 c.id).contacts.find?
          (fun x => x.id == c.id)).map (fun x => x.messages)
        = some [{ outboundMessage t c.cell aid with send_status := .SENT }] := by
  have hm0 : (outboundMessage t c.cell aid).direction = Direction.outbound := rfl
  have hfind1 : (appendMessage db c.id (outboundMessage t c.cell aid)).contacts.find?
      (fun x => x.id == c.id)
      = some { c with
          messages := [outboundMessage t c.cell aid]
          message_status := .messaged } := by
    have h1 := find_appendMessage db c.id (outboundMessage t c.cell aid)
    rw [hfind] at h1
    simp only [Option.map_some'] at h1
    rw [hmsgs] at h1
    simp only [List.nil_append] at h1
    rw [hopt, derive_single_outbound _ hm0] at h1
    exact h1
  refine ⟨?_, ?_, ?_⟩
  · show ((appendMessage db c.id (outboundMessage t c.cell aid)).contacts.find?
        (fun x => x.id == c.id)).map
        (viewContact (appendMessage db c.id (outboundMessage t c.cell aid))) = _
    rw [hfind1]
    simp only [Option.map_some']
    have hoptX : isOptedOut (appendMessage db c.id (outboundMessage t c.cell aid)) c.cell = false :=
      hopt
    simp [viewContact, hoptX, derive_single_outbound _ hm0]
  · show contactStatus (markLatestSent (appendMessage db c.id (outboundMessage t c.cell aid)) c.id)
        c.id = some .messaged
    rw [contactStatus, find_markLatestSent, hfind1]
    rfl
  · show ((markLatestSent (appendMessage db c.id (outboundMessage t c.cell aid)) c.id).contacts.find?
          (fun x => x.id == c.id)).map (fun x => x.messages)
        = some [{ outboundMessage t c.cell aid with send_status := .SENT }]
    rw [find_markLatestSent, hfind1]
    rfl

/-- A sample one-contact campaign database used to instantiate theorems. -/
def sampleContact : CampaignContact :=
  { id := 1
    cell := "+15551234567"
    campaign_id := 7
    assignment_id := 3
    message_status := .needsMessage
    messages := [] }

/-- A sample database holding just `sampleContact`, nobody opted out. -/
def sampleDb : Database :=
  { contacts := [sampleContact], optOuts := [] }

/-- Witness instantiating the C1 theorem on a concrete database. -/
theorem sendMessage_needsMessage_becomes_messaged_witness :
    contactStatus (markLatestSent (sendMessage sampleDb 1 "+15551234567" "test text" 3).1 1) 1
      = some .messaged :=
  (sendMessage_needsMessage_becomes_messaged sampleDb sampleContact "test text" 3
    (by rfl) (by rfl) (by rfl)).2.1

/-- C2: ingesting an inbound message sets the contact's stored
`message_status` to `needsResponse`, and a subsequent outbound reply after
that inbound message sets it to `convo`. -/
theorem receive_then_reply_statuses
    (db : Database) (c : CampaignContact) (t1 t2 : String) (aid : Nat)
    (hfind : db.contacts.find? (fun x => x.id == c.id) = some c)
    (hopt : isOptedOut db c.cell = false) :
    contactStatus (receiveMessage db c.id c.cell t1 aid) c.id = some .needsResponse
    ∧ contactStatus (sendMessage (receiveMessage db c.id c.cell t1 aid) c.id c.cell t2 aid).1 c.id
        = some .convo := by
  have hin : (inboundMessage t1 c.cell aid).direction = Direction.inbound := rfl
  have hout : (outboundMessage t2 c.cell aid).direction = Direction.outbound := rfl
  have hfind1 : (receiveMessage db c.id c.cell t1 aid).contacts.find? (fun x => x.id == c.id)
      = some { c with
          messages := c.messages ++ [inboundMessage t1 c.cell aid]
          message_status := .needsResponse } := by
    have h1 := find_appendMessage db c.id (inboundMessage t1 c.cell aid)
    rw [hfind] at h1
    simp only [Option.map_some'] at h1
    rw [hopt, derive_last_inbound _ _ hin] at h1
    exact h1
  constructor
  · rw [contactStatus, hfind1]
    rfl
  · have hopt1 : isOptedOut (receiveMessage db c.id c.cell t1 aid) c.cell = false := hopt
    have hany : (c.messages ++ [inboundMessage t1 c.cell aid]).any
        (fun x => x.direction == Direction.inbound) = true := by
      simp [List.any_append, hin]
    have h2 := find_appendMessage (receiveMessage db c.id c.cell t1 aid) c.id
      (outboundMessage t2 c.cell aid)
    rw [hfind1] at h2
    simp only [Option.map_some'] at h2
    rw [hopt1, derive_outbound_after_inbound _ _ hout hany] at h2
    show ((sendMessage (receiveMessage db c.id c.cell t1 aid) c.id c.cell t2 aid).1.contacts.find?
        (fun x => x.id == c.id)).map (fun x => x.message_status) = some .convo
    rw [show (sendMessage (receiveMessage db c.id c.cell t1 aid) c.id c.cell t2 aid).1
        = appendMessage (receiveMessage db c.id c.cell t1 aid) c.id (outboundMessage t2 c.cell aid)
        from rfl]
    rw [h2]
    rfl

/-- Witness instantiating the C2 theorem on a concrete database. -/
theorem receive_then_reply_statuses_witness :
    contactStatus (receiveMessage sampleDb 1 "+15551234567" "hello back" 3) 1
        = some .needsResponse
    ∧ contactStatus (sendMessage (receiveMessage sampleDb 1 "+15551234567" "hello back" 3)
        1 "+15551234567" "reply" 3).1 1 = some .convo :=
  receive_then_reply_statuses sampleDb sampleContact "hello back" "reply" 3 (by rfl) (by rfl)

/-- C3: after `createOptOut` for a cell, every contact with that cell has
stored status `optOut`, `getAssignmentContacts` returns such contacts with
a non-null `optOut` value and status `optOut`, and an existing opt-out
overrides every other status rule. -/
theorem createOptOut_overrides_status
    (db : Database) (cell : String) (qids : List Nat) :
    (∀ x, x ∈ (createOptOut db cell).contacts → x.cell = cell →
      x.message_status = .optOut)
    ∧ (∀ v, v ∈ getAssignmentContacts (createOptOut db cell) qids → v.cell = cell →
        v.optOut = some "optout" ∧ v.messageStatus = .optOut)
    ∧ (∀ msgs : List Message, deriveMessageStatus true msgs = .optOut) := by
  refine ⟨?_, ?_, ?_⟩
  · intro x hx hcell
    simp only [createOptOut] at hx
    rcases List.mem_map.mp hx with ⟨y, hy, rfl⟩
    by_cases hc : (y.cell == cell) = true
    · simp [hc]
    · rw [if_neg hc] at hcell ⊢
      exact absurd (by simpa using hcell) hc
  · intro v hv hcell
    simp only [getAssignmentContacts] at hv
    rcases List.mem_filterMap.mp hv with ⟨i, hi, hsome⟩
    rcases Option.map_eq_some'.mp hsome with ⟨x, hxfind, rfl⟩
    have hxc : x.cell = cell := hcell
    have hx : isOptedOut (createOptOut db cell) x.cell = true := by
      rw [hxc]
      simp [isOptedOut, createOptOut]
    constructor
    · simp [viewContact, hx]
    · simp [viewContact, hx, deriveMessageStatus]
  · intro msgs
    simp [deriveMessageStatus]

/-- Witness instantiating the C3 theorem on a concrete database. -/
theorem createOptOut_overrides_status_witness :
    (viewContact (createOptOut sampleDb "+15551234567")
        { sampleContact with message_status := .optOut }).optOut = some "optout"
    ∧ deriveMessageStatus true [inboundMessage "any" "+15551234567" 3] = .optOut := by
  constructor
  · exact ((createOptOut_overrides_status sampleDb "+15551234567" [1]).2.1
      (viewContact (createOptOut sampleDb "+15551234567")
        { sampleContact with message_status := .optOut })
      (by decide) (by decide)).1
  · exact (createOptOut_overrides_status sampleDb "+15551234567" [1]).2.2
      [inboundMessage "any" "+15551234567" 3]

theorem find_map_preserving (l : List CampaignContact) (i : Nat)
    (f : CampaignContact → CampaignContact) (hf : ∀ c, (f c).id = c.id) :
    (l.map f).find? (fun c => c.id == i) = (l.find? (fun c => c.id == i)).map f := by
  induction l with
  | nil => rfl
  | cons c rest ih =>
    simp only [List.map_cons]
    by_cases h : (c.id == i) = true
    · have hfc : ((f c).id == i) = true := by
        rw [hf]
        exact h
      simp only [List.find?_cons, hfc, h]
      rfl
    · have hb : (c.id == i) = false := by
        simpa using h
      have hfb : ((f c).id == i) = false := by
        rw [hf]
        exact hb
      simp only [List.find?_cons, hfb, hb, ih]

theorem map_map_eq {α β : Type} (l : List α) (f : α → α) (p q : α → β)
    (h : ∀ a, p (f a) = q a) : (l.map f).map p = l.map q := by
  induction l with
  | nil => rfl
  | cons a rest ih => simp [h, ih]

theorem viewContact_reassign (db : Database) (ids : List Nat) (aid : Nat)
    (x : CampaignContact) :
    viewContact (reassignCampaignContacts db ids aid)
        (if ids.contains x.id then { x with assignment_id := aid } else x)
      = viewContact db x := by
  by_cases h : x.id ∈ ids
  · simp [viewContact, h, reassignCampaignContacts, isOptedOut]
  · simp [viewContact, h, reassignCampaignContacts, isOptedOut]

theorem getAssignmentContacts_reassign (db : Database) (ids : List Nat) (aid : Nat)
    (qids : List Nat) :
    getAssignmentContacts (reassignCampaignContacts db ids aid) qids
      = getAssignmentContacts db qids := by
  have hf : ∀ c : CampaignContact,
      ((if ids.contains c.id then { c with assignment_id := aid } else c) : CampaignContact).id
        = c.id := by
    intro c
    by_cases h : c.id ∈ ids <;> simp [h]
  have hopt : ∀ i : Nat,
      ((reassignCampaignContacts db ids aid).contacts.find? (fun c => c.id == i)).map
        (viewContact (reassignCampaignContacts db ids aid))
      = (db.contacts.find? (fun c => c.id == i)).map (viewContact db) := by
    intro i
    rw [show (reassignCampaignContacts db ids aid).contacts
        = db.contacts.map
            (fun c => if ids.contains c.id then { c with assignment_id := aid } else c)
        from rfl]
    rw [find_map_preserving _ _ _ hf]
    cases db.contacts.find? (fun c => c.id == i) with
    | none => rfl
    | some x =>
      simp only [Option.map_some']
      rw [viewContact_reassign]
  induction qids with
  | nil => rfl
  | cons i rest ih =>
    simp only [getAssignmentContacts, List.filterMap_cons] at ih ⊢
    rw [hopt i]
    cases (db.contacts.find? (fun c => c.id == i)).map (viewContact db) with
    | none => exact ih
    | some v => rw [ih]

/-- C4: `reassignCampaignContacts` keeps the same contact rows (same
cardinality, same ids, same messages and other fields), changes only the
assignment binding of the listed contacts, introduces no duplicates, and a
subsequent `getAssignmentContacts` returns exactly the same contact views. -/
theorem reassign_preserves_contact_set
    (db : Database) (ids : List Nat) (aid : Nat) (qids : List Nat) :
    (reassignCampaignContacts db ids aid).contacts.length = db.contacts.length
    ∧ (reassignCampaignContacts db ids aid).contacts.map (fun c => c.id)
        = db.contacts.map (fun c => c.id)
    ∧ (reassignCampaignContacts db ids aid).contacts.map
          (fun c => (c.id, c.cell, c.campaign_id, c.message_status, c.messages))
        = db.contacts.map
          (fun c => (c.id, c.cell, c.campaign_id, c.message_status, c.messages))
    ∧ (reassignCampaignContacts db ids aid).contacts.map (fun c => c.assignment_id)
        = db.contacts.map (fun c => if ids.contains c.id then aid else c.assignment_id)
    ∧ (((reassignCampaignContacts db ids aid).contacts.map (fun c => c.id)).Nodup
        ↔ (db.contacts.map (fun c => c.id)).Nodup)
    ∧ getAssignmentContacts (reassignCampaignContacts db ids aid) qids
        = getAssignmentContacts db qids := by
  have hids : (reassignCampaignContacts db ids aid).contacts.map (fun c => c.id)
      = db.contacts.map (fun c => c.id) := by
    rw [show (reassignCampaignContacts db ids aid).contacts
        = db.contacts.map
            (fun c => if ids.contains c.id then { c with assignment_id := aid } else c)
        from rfl]
    apply map_map_eq
    intro a
    by_cases h : a.id ∈ ids <;> simp [h]
  refine ⟨?_, hids, ?_, ?_, ?_, ?_⟩
  · rw [show (reassignCampaignContacts db ids aid).contacts
        = db.contacts.map
            (fun c => if ids.contains c.id then { c with assignment_id := aid } else c)
        from rfl]
    exact List.length_map _ _
  · rw [show (reassignCampaignContacts db ids aid).contacts
        = db.contacts.map
            (fun c => if ids.contains c.id then { c with assignment_id := aid } else c)
        from rfl]
    apply map_map_eq
    intro a
    by_cases h : a.id ∈ ids <;> simp [h]
  · rw [show (reassignCampaignContacts db ids aid).contacts
        = db.contacts.map
            (fun c => if ids.contains c.id then { c with assignment_id := aid } else c)
        from rfl]
    apply map_map_eq
    intro a
    by_cases h : a.id ∈ ids <;> simp [h]
  · rw [hids]
  · exact getAssignmentContacts_reassign db ids aid qids

/-- The contact-mutating operations exercised by the integration tests. -/
inductive Op
| send (contactId : Nat) (contactNumber text : String) (aid : Nat)
| receive (contactId : Nat) (contactNumber text : String) (aid : Nat)
| markSent (contactId : Nat)
| addOptOut (cell : String)
| reassign (ids : List Nat) (aid : Nat)
deriving DecidableEq, Repr

/-- Modelled from the spec: the datastore effect of each operation. -/
def applyOp (db : Database) : Op → Database
  | .send contactId contactNumber text aid => (sendMessage db contactId contactNumber text aid).1
  | .receive contactId contactNumber text aid => receiveMessage db contactId contactNumber text aid
  | .markSent contactId => markLatestSent db contactId
  | .addOptOut cell => createOptOut db cell
  | .reassign ids aid => reassignCampaignContacts db ids aid

/-- Consistency: every contact's stored status equals the pure derivation
from opt-out presence and its message history. -/
def consistent (db : Database) : Bool :=
  db.contacts.all (fun c =>
    c.message_status == deriveMessageStatus (isOptedOut db c.cell) c.messages)

theorem setLastSent_dirs (msgs : List Message) :
    (setLastSent msgs).map (fun m => m.direction) = msgs.map (fun m => m.direction) := by
  induction msgs with
  | nil => rfl
  | cons m rest ih =>
    cases rest with
    | nil => rfl
    | cons m2 rest2 =>
      simp only [setLastSent, List.map_cons]
      rw [ih]
      rfl

theorem any_inbound_map (l : List Message) :
    l.any (fun m => m.direction == Direction.inbound)
      = (l.map (fun m => m.direction)).any (fun d => d == Direction.inbound) := by
  induction l with
  | nil => rfl
  | cons m rest ih => simp [ih]

theorem derive_congr (optedOut : Bool) (xs ys : List Message)
    (hdirs : xs.map (fun m => m.direction) = ys.map (fun m => m.direction)) :
    deriveMessageStatus optedOut xs = deriveMessageStatus optedOut ys := by
  have hlast : xs.getLast?.map (fun m => m.direction) = ys.getLast?.map (fun m => m.direction) := by
    rw [← List.getLast?_map, ← List.getLast?_map, hdirs]
  have hany : xs.any (fun m => m.direction == Direction.inbound)
      = ys.any (fun m => m.direction == Direction.inbound) := by
    rw [any_inbound_map, any_inbound_map, hdirs]
  cases hb : optedOut with
  | true => rfl
  | false =>
    simp only [deriveMessageStatus]
    cases hxl : xs.getLast? with
    | none =>
      cases hyl : ys.getLast? with
      | none => rfl
      | some my =>
        rw [hxl, hyl] at hlast
        simp at hlast
    | some mx =>
      cases hyl : ys.getLast? with
      | none =>
        rw [hxl, hyl] at hlast
        simp at hlast
      | some my =>
        rw [hxl, hyl] at hlast
        have hd : mx.direction = my.direction := by
          simpa using hlast
        simp [hd, hany]

theorem consistent_updateContact (db : Database) (contactId : Nat)
    (g : CampaignContact → CampaignContact)
    (hstat : ∀ c, c.message_status = deriveMessageStatus (isOptedOut db c.cell) c.messages →
      (g c).message_status = deriveMessageStatus (isOptedOut db (g c).cell) (g c).messages)
    (h : consistent db = true) : consistent (updateContact db contactId g) = true := by
  rw [consistent, List.all_eq_true] at h
  rw [consistent, List.all_eq_true]
  intro x hx
  rcases List.mem_map.mp
    (show x ∈ db.contacts.map (fun c => if c.id == contactId then g c else c) from hx)
    with ⟨c, hc, rfl⟩
  have hpre : c.message_status = deriveMessageStatus (isOptedOut db c.cell) c.messages := by
    simpa using h c hc
  have hopts : ∀ z : String, isOptedOut (updateContact db contactId g) z = isOptedOut db z :=
    fun _ => rfl
  by_cases hid : (c.id == contactId) = true
  · rw [if_pos hid]
    simp only [hopts]
    simp [hstat c hpre]
  · rw [if_neg hid]
    simp only [hopts]
    simp [hpre]

theorem consistent_createOptOut (db : Database) (cell : String)
    (h : consistent db = true) : consistent (createOptOut db cell) = true := by
  rw [consistent, List.all_eq_true] at h
  rw [consistent, List.all_eq_true]
  intro x hx
  rcases List.mem_map.mp (show x ∈ db.contacts.map
      (fun c => if c.cell == cell then { c with message_status := .optOut } else c) from hx)
    with ⟨c, hc, rfl⟩
  by_cases hcell : (c.cell == cell) = true
  · rw [if_pos hcell]
    have hopt : isOptedOut (createOptOut db cell) c.cell = true := by
      have hc2 : c.cell = cell := by
        simpa using hcell
      simp [isOptedOut, createOptOut, hc2]
    simp [hopt, deriveMessageStatus]
  · rw [if_neg hcell]
    have hc2 : ¬ c.cell = cell := by
      simpa using hcell
    have hopt : isOptedOut (createOptOut db cell) c.cell = isOptedOut db c.cell := by
      simp [isOptedOut, createOptOut]
      intro he
      exact absurd he.symm hc2
    rw [hopt]
    simpa using h c hc

theorem consistent_reassign (db : Database) (ids : List Nat) (aid : Nat)
    (h : consistent db = true) : consistent (reassignCampaignContacts db ids aid) = true := by
  rw [consistent, List.all_eq_true] at h
  rw [consistent, List.all_eq_true]
  intro x hx
  rcases List.mem_map.mp (show x ∈ db.contacts.map
      (fun c => if ids.contains c.id then { c with assignment_id := aid } else c) from hx)
    with ⟨c, hc, rfl⟩
  have hopts : ∀ z : String, isOptedOut (reassignCampaignContacts db ids aid) z = isOptedOut db z :=
    fun _ => rfl
  have hpre : c.message_status = deriveMessageStatus (isOptedOut db c.cell) c.messages := by
    simpa using h c hc
  by_cases hid : c.id ∈ ids
  · simp only [hopts]
    simp [hid, hpre]
  · simp only [hopts]
    simp [hid, hpre]

theorem consistent_applyOp (db : Database) (op : Op) (h : consistent db = true) :
    consistent (applyOp db op) = true := by
  cases op with
  | send contactId contactNumber text aid =>
    exact consistent_updateContact db contactId _ (fun c _ => rfl) h
  | receive contactId contactNumber text aid =>
    exact consistent_updateContact db contactId _ (fun c _ => rfl) h
  | markSent contactId =>
    refine consistent_updateContact db contactId _ ?_ h
    intro c hpre
    have hderive : deriveMessageStatus (isOptedOut db c.cell) (setLastSent c.messages)
        = deriveMessageStatus (isOptedOut db c.cell) c.messages :=
      derive_congr _ _ _ (setLastSent_dirs c.messages)
    calc ({ c with messages := setLastSent c.messages } : CampaignContact).message_status
        = c.message_status := rfl
      _ = deriveMessageStatus (isOptedOut db c.cell) c.messages := hpre
      _ = deriveMessageStatus (isOptedOut db c.cell) (setLastSent c.messages) := hderive.symm
  | addOptOut cell => exact consistent_createOptOut db cell h
  | reassign ids aid => exact consistent_reassign db ids aid h

/-- C7: starting from any consistent store, every sequence of operations
(sends, inbound ingestion, provider updates, opt-outs, reassignments)
leaves every contact's stored `message_status` equal to the pure derivation
from its opt-out flag and message history. -/
theorem message_status_always_derivable
    (db : Database) (ops : List Op) (h : consistent db = true) :
    consistent (ops.foldl applyOp db) = true := by
  induction ops generalizing db with
  | nil => exact h
  | cons op rest ih => exact ih _ (consistent_applyOp db op h)

/-- Witness instantiating the C7 invariant over a concrete operation trace. -/
theorem message_status_always_derivable_witness :
    consistent ([Op.send 1 "+15551234567" "test text" 3,
      Op.markSent 1,
      Op.receive 1 "+15551234567" "responding" 3,
      Op.send 1 "+15551234567" "reply" 3,
      Op.reassign [1] 9,
      Op.addOptOut "+15551234567"].foldl applyOp sampleDb) = true :=
  message_status_always_derivable sampleDb _ (by decide)

/-- A server wrapping the store with a request-scoped query cache. -/
structure Server where
  db : Database
  cache : Option (List Nat × List ContactView)
deriving DecidableEq, Repr

/-- Modelled from the spec: a `getAssignmentContacts` read is answered from
the cache when the same query was cached, else computed and cached. -/
def runQuery (s : Server) (qids : List Nat) : Server × List ContactView :=
  match s.cache with
  | some (cids, res) =>
    if cids == qids then (s, res)
    else
      ({ s with cache := some (qids, getAssignmentContacts s.db qids) },
        getAssignmentContacts s.db qids)
  | none =>
    ({ s with cache := some (qids, getAssignmentContacts s.db qids) },
      getAssignmentContacts s.db qids)

/-- Modelled from the spec: mutations write the store and invalidate the
cached reads, so the next query recomputes. -/
def runMutation (s : Server) (op : Op) : Server :=
  { db := applyOp s.db op, cache := none }

/-- C8: after any contact mutation, a `getAssignmentContacts` query returns
the state recomputed from the mutated store, even when the same query was
previously answered from the cache; reads themselves never change the
store, and a matching cached entry is indeed served from the cache. -/
theorem mutation_invalidates_cached_reads (s : Server) (op : Op) (qids : List Nat) :
    (runQuery (runMutation (runQuery s qids).1 op) qids).2
        = getAssignmentContacts (applyOp (runQuery s qids).1.db op) qids
    ∧ (runMutation (runQuery s qids).1 op).cache = none
    ∧ (runQuery s qids).1.db = s.db
    ∧ (∀ res, s.cache = some (qids, res) → (runQuery s qids).2 = res) := by
  refine ⟨rfl, rfl, ?_, ?_⟩
  · rcases s with ⟨db, cache⟩
    cases cache with
    | none => rfl
    | some p =>
      rcases p with ⟨cids, res⟩
      by_cases h : (cids == qids) = true
      · simp [runQuery, h]
      · simp [runQuery, h]
  · intro res hres
    rcases s with ⟨db, cache⟩
    simp only at hres
    rw [hres]
    simp [runQuery]

/-- Witness: a stale cached read is served from the cache, and after an
opt-out mutation the same query returns the recomputed contacts. -/
theorem mutation_invalidates_cached_reads_witness :
    (runQuery { db := sampleDb, cache := some ([1], []) } [1]).2 = []
    ∧ (runQuery (runMutation
          (runQuery { db := sampleDb, cache := some ([1], []) } [1]).1
          (Op.addOptOut "+15551234567")) [1]).2
        = getAssignmentContacts
            (applyOp (runQuery { db := sampleDb, cache := some ([1], []) } [1]).1.db
              (Op.addOptOut "+15551234567")) [1] := by
  constructor
  · exact (mutation_invalidates_cached_reads { db := sampleDb, cache := some ([1], []) }
      (Op.addOptOut "+15551234567") [1]).2.2.2 [] rfl
  · exact (mutation_invalidates_cached_reads { db := sampleDb, cache := some ([1], []) }
      (Op.addOptOut "+15551234567") [1]).1

/-!
Part 2: the gVIRS contact loader, embedded from the source of
`processContactLoad` and `addServerEndpoints`.
-/

/-- A contact record fetched from a gVIRS segment; `cell` is the phone
number used as the deduplication key and `payload` stands in for the
remaining columns of the record. -/
structure ContactRecord where
  cell : String
  payload : String
deriving DecidableEq, Repr

/-- One step of the loader's accumulation
(`contactsForAdding[contactRecord.cell] = contactRecord`): JavaScript
object semantics keyed by cell — replace the entry in place when the key
exists, else append a new entry. -/
def insertRecord (m : List ContactRecord) (rec : ContactRecord) : List ContactRecord :=
  if m.any (fun q => q.cell == rec.cell) then
    m.map (fun q => if q.cell == rec.cell then rec else q)
  else m ++ [rec]

/-- First record with the given cell (property lookup in the object). -/
def findCell (m : List ContactRecord) (c : String) : Option ContactRecord :=
  m.find? (fun q => q.cell == c)

/-- The last record with the given cell in iteration order. -/
def lastWithCell (recs : List ContactRecord) (c : String) : Option ContactRecord :=
  findCell recs.reverse c

/-- Left-biased choice on optional records. -/
def orElseOpt (a b : Option ContactRecord) : Option ContactRecord :=
  match a with
  | some x => some x
  | none => b

/-- The loader's accumulation over one flat list of records. -/
def dedupeContacts (recs : List ContactRecord) : List ContactRecord :=
  recs.foldl insertRecord []

/-- `Object.values(contactsForAdding)` as accumulated by
`processContactLoad` over the job's segments in order. -/
def loadedRecords (segmentIds : List Nat) (fetch : Nat → List ContactRecord) :
    List ContactRecord :=
  segmentIds.foldl (fun m s => (fetch s).foldl insertRecord m) []

theorem findCell_cons (q : ContactRecord) (m : List ContactRecord) (c : String) :
    findCell (q :: m) c = if (q.cell == c) = true then some q else findCell m c := by
  by_cases h : (q.cell == c) = true
  · simp [findCell, List.find?_cons, h]
  · simp [findCell, List.find?_cons, h]

theorem findCell_append (m1 m2 : List ContactRecord) (c : String) :
    findCell (m1 ++ m2) c = orElseOpt (findCell m1 c) (findCell m2 c) := by
  induction m1 with
  | nil => rfl
  | cons q m1 ih =>
    by_cases h : (q.cell == c) = true
    · simp [findCell_cons, h, orElseOpt]
    · simp [findCell_cons, h, ih]

theorem not_true_of_false {b : Bool} (h : b = false) : ¬ b = true := by
  rw [h]
  exact Bool.false_ne_true

theorem findCell_replace (m : List ContactRecord) (r : ContactRecord) (c : String) :
    findCell (m.map (fun q => if q.cell == r.cell then r else q)) c
      = if c = r.cell
        then (if m.any (fun q => q.cell == r.cell) then some r else none)
        else findCell m c := by
  induction m with
  | nil =>
    by_cases hc : c = r.cell
    · rw [if_pos hc]
      rfl
    · rw [if_neg hc]
      rfl
  | cons q m ih =>
    simp only [List.map_cons, List.any_cons]
    by_cases hq : q.cell = r.cell
    · have hqb : (q.cell == r.cell) = true := beq_iff_eq.mpr hq
      rw [if_pos hqb, findCell_cons]
      simp only [hqb, Bool.true_or]
      by_cases hc : c = r.cell
      · have hrb : (r.cell == c) = true := beq_iff_eq.mpr hc.symm
        rw [if_pos hrb, if_pos hc]
        simp
      · have hrb : (r.cell == c) = false := beq_eq_false_iff_ne.mpr (fun e => hc e.symm)
        have hqcb : (q.cell == c) = false := beq_eq_false_iff_ne.mpr (fun e => hc (e.symm.trans hq))
        rw [if_neg (not_true_of_false hrb), if_neg hc, ih, if_neg hc, findCell_cons,
          if_neg (not_true_of_false hqcb)]
    · have hqb : (q.cell == r.cell) = false := beq_eq_false_iff_ne.mpr hq
      rw [if_neg (not_true_of_false hqb), findCell_cons]
      simp only [hqb, Bool.false_or]
      by_cases hqc : q.cell = c
      · have hqcb : (q.cell == c) = true := beq_iff_eq.mpr hqc
        have hc : ¬ c = r.cell := fun e => hq (hqc.trans e)
        rw [if_pos hqcb, if_neg hc, findCell_cons, if_pos hqcb]
      · have hqcb : (q.cell == c) = false := beq_eq_false_iff_ne.mpr hqc
        rw [if_neg (not_true_of_false hqcb), ih]
        by_cases hc : c = r.cell
        · rw [if_pos hc, if_pos hc]
        · rw [if_neg hc, if_neg hc, findCell_cons, if_neg (not_true_of_false hqcb)]

theorem orElseOpt_none (a : Option ContactRecord) : orElseOpt a none = a := by
  cases a <;> rfl

theorem findCell_insertRecord (m : List ContactRecord) (r : ContactRecord) (c : String) :
    findCell (insertRecord m r) c = if c = r.cell then some r else findCell m c := by
  rw [insertRecord]
  by_cases hany : (m.any fun q => q.cell == r.cell) = true
  · rw [if_pos hany, findCell_replace]
    simp only [hany]
    by_cases hc : c = r.cell
    · rw [if_pos hc, if_pos hc]
      simp
    · rw [if_neg hc, if_neg hc]
  · rw [if_neg hany, findCell_append]
    by_cases hc : c = r.cell
    · subst hc
      have hnone : findCell m r.cell = none := by
        rw [findCell, List.find?_eq_none]
        intro q hqm hqb
        exact hany (List.any_eq_true.mpr ⟨q, hqm, hqb⟩)
      have h1 : findCell [r] r.cell = some r := by
        rw [findCell_cons, if_pos (beq_self_eq_true _)]
      rw [hnone, h1, if_pos rfl]
      rfl
    · have hr : (r.cell == c) = false := beq_eq_false_iff_ne.mpr (fun e => hc e.symm)
      have h1 : findCell [r] c = none := by
        rw [findCell_cons, if_neg (not_true_of_false hr)]
        rfl
      rw [h1, if_neg hc, orElseOpt_none]

theorem lastWithCell_cons (r : ContactRecord) (recs : List ContactRecord) (c : String) :
    lastWithCell (r :: recs) c
      = orElseOpt (lastWithCell recs c) (findCell [r] c) := by
  rw [lastWithCell, List.reverse_cons, findCell_append]
  rfl

theorem findCell_foldl (recs m : List ContactRecord) (c : String) :
    findCell (recs.foldl insertRecord m) c
      = orElseOpt (lastWithCell recs c) (findCell m c) := by
  induction recs generalizing m with
  | nil => rfl
  | cons r recs ih =>
    rw [List.foldl_cons, ih, findCell_insertRecord, lastWithCell_cons]
    cases lastWithCell recs c with
    | some x => rfl
    | none =>
      by_cases hc : c = r.cell
      · subst hc
        have h1 : findCell [r] r.cell = some r := by
          rw [findCell_cons, if_pos (beq_self_eq_true _)]
        rw [h1, if_pos rfl]
        rfl
      · have hr : (r.cell == c) = false := beq_eq_false_iff_ne.mpr (fun e => hc e.symm)
        have h1 : findCell [r] c = none := by
          rw [findCell_cons, if_neg (not_true_of_false hr)]
          rfl
        rw [h1, if_neg hc]
        rfl

theorem cells_insertRecord (m : List ContactRecord) (r : ContactRecord) :
    (insertRecord m r).map (fun q => q.cell)
      = if m.any (fun q => q.cell == r.cell) then m.map (fun q => q.cell)
        else m.map (fun q => q.cell) ++ [r.cell] := by
  rw [insertRecord]
  by_cases hany : (m.any fun q => q.cell == r.cell) = true
  · rw [if_pos hany, if_pos hany]
    apply map_map_eq
    intro q
    by_cases hq : q.cell = r.cell
    · simp [hq]
    · simp [hq]
  · rw [if_neg hany, if_neg hany, List.map_append]
    rfl

theorem nodup_insertRecord (m : List ContactRecord) (r : ContactRecord)
    (h : ((m.map (fun q => q.cell)).Nodup)) :
    ((insertRecord m r).map (fun q => q.cell)).Nodup := by
  rw [cells_insertRecord]
  by_cases hany : (m.any fun q => q.cell == r.cell) = true
  · rw [if_pos hany]
    exact h
  · rw [if_neg hany]
    have hnotmem : r.cell ∉ m.map (fun q => q.cell) := by
      intro hmem
      rcases List.mem_map.mp hmem with ⟨q, hqm, hqe⟩
      exact hany (List.any_eq_true.mpr ⟨q, hqm, beq_iff_eq.mpr hqe⟩)
    simp [List.nodup_append, h, hnotmem]

theorem nodup_foldl_insertRecord (recs m : List ContactRecord)
    (h : ((m.map (fun q => q.cell)).Nodup)) :
    (((recs.foldl insertRecord m).map (fun q => q.cell)).Nodup) := by
  induction recs generalizing m with
  | nil => exact h
  | cons r recs ih => exact ih _ (nodup_insertRecord _ _ h)

theorem findCell_of_mem (m : List ContactRecord)
    (hnd : ((m.map (fun q => q.cell)).Nodup))
    (rec : ContactRecord) (hm : rec ∈ m) : findCell m rec.cell = some rec := by
  induction m with
  | nil => cases hm
  | cons q m ih =>
    have hnd2 : (q.cell ∉ m.map (fun x => x.cell)) ∧ ((m.map (fun x => x.cell)).Nodup) :=
      List.nodup_cons.mp (by simpa using hnd)
    rcases List.mem_cons.mp hm with rfl | hm2
    · simp [findCell_cons]
    · have hq : ¬ q.cell = rec.cell := by
        intro e
        exact hnd2.1 (e ▸ List.mem_map.mpr ⟨rec, hm2, rfl⟩)
      have hqb : (q.cell == rec.cell) = false := beq_eq_false_iff_ne.mpr hq
      rw [findCell_cons, hqb]
      simp only [Bool.false_eq_true, if_false]
      exact ih hnd2.2 hm2

theorem foldl_segments (segs : List Nat) (fetch : Nat → List ContactRecord)
    (m : List ContactRecord) :
    segs.foldl (fun acc s => (fetch s).foldl insertRecord acc) m
      = (segs.flatMap fetch).foldl insertRecord m := by
  induction segs generalizing m with
  | nil => rfl
  | cons s segs ih =>
    rw [List.foldl_cons, List.flatMap_cons, List.foldl_append, ih]

theorem loadedRecords_eq_dedupe (segs : List Nat) (fetch : Nat → List ContactRecord) :
    loadedRecords segs fetch = dedupeContacts (segs.flatMap fetch) := by
  rw [loadedRecords, dedupeContacts, foldl_segments]

/-- C5: the record set built by `processContactLoad` holds exactly one
record per phone number — looking any cell up in it yields precisely the
last fetched record with that cell across all segments in iteration order,
and a record is retained iff it is that last record for its cell. -/
theorem loader_dedupes_last_record_wins (segmentIds : List Nat)
    (fetch : Nat → List ContactRecord) (c : String) :
    findCell (loadedRecords segmentIds fetch) c
        = lastWithCell (segmentIds.flatMap fetch) c
    ∧ (((loadedRecords segmentIds fetch).map (fun r => r.cell)).Nodup)
    ∧ (∀ rec : ContactRecord, rec ∈ loadedRecords segmentIds fetch ↔
        lastWithCell (segmentIds.flatMap fetch) rec.cell = some rec) := by
  have hnd : (((loadedRecords segmentIds fetch).map (fun r => r.cell)).Nodup) := by
    rw [loadedRecords_eq_dedupe, dedupeContacts]
    exact nodup_foldl_insertRecord _ _ List.nodup_nil
  have hchar : ∀ z : String, findCell (loadedRecords segmentIds fetch) z
      = lastWithCell (segmentIds.flatMap fetch) z := by
    intro z
    rw [loadedRecords_eq_dedupe, dedupeContacts, findCell_foldl]
    rw [show findCell [] z = none from rfl, orElseOpt_none]
  refine ⟨hchar c, hnd, ?_⟩
  intro rec
  constructor
  · intro hmem
    rw [← hchar rec.cell]
    exact findCell_of_mem _ hnd rec hmem
  · intro hlast
    have hfind : findCell (loadedRecords segmentIds fetch) rec.cell = some rec := by
      rw [hchar rec.cell]
      exact hlast
    exact List.mem_of_find?_eq_some hfind

/-- Witness instantiating the C5 theorem: two segments sharing the phone
number keep only the later record. -/
theorem loader_dedupes_last_record_wins_witness :
    findCell (loadedRecords [1, 2]
        (fun s => if s == 1 then [{ cell := "+15551230000", payload := "first" }]
          else [{ cell := "+15551230000", payload := "second" }])) "+15551230000"
      = some { cell := "+15551230000", payload := "second" }
    ∧ (loadedRecords [1, 2]
        (fun s => if s == 1 then [{ cell := "+15551230000", payload := "first" }]
          else [{ cell := "+15551230000", payload := "second" }])).length = 1 := by
  constructor
  · rw [(loader_dedupes_last_record_wins [1, 2]
      (fun s => if s == 1 then [{ cell := "+15551230000", payload := "first" }]
        else [{ cell := "+15551230000", payload := "second" }]) "+15551230000").1]
    decide
  · decide

/-- A contact-load job: the campaign it loads into and the segment ids of
its JSON payload. -/
structure Job where
  campaign_id : Nat
  segmentIds : List Nat
deriving DecidableEq, Repr

/-- The observable datastore effects of `processContactLoad`, in program
order. -/
inductive Effect
| deleteContacts (campaignId : Nat)
| fetchSegment (segmentId : Nat)
| batchInsert (records : List ContactRecord)
| completeLoad (campaignId : Nat)
deriving DecidableEq, Repr

def isCompleteEffect : Effect → Bool
  | .completeLoad _ => true
  | _ => false

def isInsertEffect : Effect → Bool
  | .batchInsert _ => true
  | _ => false

def isDeleteEffect : Effect → Bool
  | .deleteContacts _ => true
  | _ => false

/-- Embedding of `processContactLoad(job, maxContacts, organization)` as
its trace of effects: delete the campaign's previous contacts, fetch each
segment of the payload via `getSegmentContacts`, accumulate the records
keyed by cell (last record wins), batch-insert the accumulated values when
any exist, and finally call `completeContactLoad`. -/
def processContactLoad (job : Job) (fetch : Nat → List ContactRecord) : List Effect :=
  [Effect.deleteContacts job.campaign_id]
  ++ job.segmentIds.map Effect.fetchSegment
  ++ (if (loadedRecords job.segmentIds fetch).isEmpty then []
      else [Effect.batchInsert (loadedRecords job.segmentIds fetch)])
  ++ [Effect.completeLoad job.campaign_id]

theorem countP_map_fetchSegment (segs : List Nat) (p : Effect → Bool)
    (hp : ∀ s, p (Effect.fetchSegment s) = false) :
    (segs.map Effect.fetchSegment).countP p = 0 := by
  induction segs with
  | nil => rfl
  | cons s segs ih => simp [List.countP_cons, hp, ih]

theorem filter_map_fetchSegment (segs : List Nat) (p : Effect → Bool)
    (hp : ∀ s, p (Effect.fetchSegment s) = false) :
    (segs.map Effect.fetchSegment).filter p = [] := by
  induction segs with
  | nil => rfl
  | cons s segs ih => simp [List.filter_cons, hp, ih]

/-- C6: `processContactLoad` performs, in order, the delete of the
campaign's previous contacts, the per-segment fetches, the batch insert of
the cell-deduplicated records when any exist, and exactly one final call
to `completeContactLoad`. -/
theorem processContactLoad_contract (job : Job) (fetch : Nat → List ContactRecord) :
    processContactLoad job fetch
        = Effect.deleteContacts job.campaign_id
            :: (job.segmentIds.map Effect.fetchSegment
              ++ (if (loadedRecords job.segmentIds fetch).isEmpty then []
                  else [Effect.batchInsert (loadedRecords job.segmentIds fetch)])
              ++ [Effect.completeLoad job.campaign_id])
    ∧ (processContactLoad job fetch).head? = some (Effect.deleteContacts job.campaign_id)
    ∧ (processContactLoad job fetch).getLast? = some (Effect.completeLoad job.campaign_id)
    ∧ (processContactLoad job fetch).countP isCompleteEffect = 1
    ∧ (processContactLoad job fetch).countP isDeleteEffect = 1
    ∧ (processContactLoad job fetch).filter isInsertEffect
        = (if (loadedRecords job.segmentIds fetch).isEmpty then []
           else [Effect.batchInsert (loadedRecords job.segmentIds fetch)])
    ∧ loadedRecords job.segmentIds fetch = dedupeContacts (job.segmentIds.flatMap fetch) := by
  refine ⟨rfl, rfl, ?_, ?_, ?_, ?_, loadedRecords_eq_dedupe _ _⟩
  · rw [processContactLoad]
    exact getLast_concat _ _
  · rw [processContactLoad]
    by_cases hE : (loadedRecords job.segmentIds fetch).isEmpty
    · simp [List.countP_append, hE,
        countP_map_fetchSegment job.segmentIds isCompleteEffect (fun _ => rfl),
        isCompleteEffect, List.countP_cons]
    · simp [List.countP_append, hE,
        countP_map_fetchSegment job.segmentIds isCompleteEffect (fun _ => rfl),
        isCompleteEffect, List.countP_cons]
  · rw [processContactLoad]
    by_cases hE : (loadedRecords job.segmentIds fetch).isEmpty
    · simp [List.countP_append, hE,
        countP_map_fetchSegment job.segmentIds isDeleteEffect (fun _ => rfl),
        isDeleteEffect, List.countP_cons]
    · simp [List.countP_append, hE,
        countP_map_fetchSegment job.segmentIds isDeleteEffect (fun _ => rfl),
        isDeleteEffect, List.countP_cons]
  · rw [processContactLoad]
    by_cases hE : (loadedRecords job.segmentIds fetch).isEmpty
    · simp [List.filter_append, hE,
        filter_map_fetchSegment job.segmentIds isInsertEffect (fun _ => rfl),
        isInsertEffect, List.filter_cons]
    · simp [List.filter_append, hE,
        filter_map_fetchSegment job.segmentIds isInsertEffect (fun _ => rfl),
        isInsertEffect, List.filter_cons]

/-- Witness instantiating the C6 theorem on a concrete two-segment job. -/
theorem processContactLoad_contract_witness :
    processContactLoad { campaign_id := 7, segmentIds := [1, 2] }
        (fun s => if s == 1 then [{ cell := "+15551230000", payload := "first" }]
          else [{ cell := "+15551230000", payload := "second" }])
      = [Effect.deleteContacts 7, Effect.fetchSegment 1, Effect.fetchSegment 2,
         Effect.batchInsert [{ cell := "+15551230000", payload := "second" }],
         Effect.completeLoad 7] := by
  have h := (processContactLoad_contract { campaign_id := 7, segmentIds := [1, 2] }
    (fun s => if s == 1 then [{ cell := "+15551230000", payload := "first" }]
      else [{ cell := "+15551230000", payload := "second" }])).1
  rw [h]
  decide

/-- C10: when the segments yield no records after deduplication, the run
performs no batch insert but still deletes the campaign's previous
contacts and still completes the load exactly once. -/
theorem processContactLoad_empty_load (job : Job) (fetch : Nat → List ContactRecord)
    (h : loadedRecords job.segmentIds fetch = []) :
    processContactLoad job fetch
        = Effect.deleteContacts job.campaign_id
            :: (job.segmentIds.map Effect.fetchSegment
              ++ [Effect.completeLoad job.campaign_id])
    ∧ (processContactLoad job fetch).countP isInsertEffect = 0
    ∧ (processContactLoad job fetch).countP isDeleteEffect = 1
    ∧ (processContactLoad job fetch).countP isCompleteEffect = 1 := by
  have hE : (loadedRecords job.segmentIds fetch).isEmpty = true := by
    rw [h]
    rfl
  have htrace : processContactLoad job fetch
      = Effect.deleteContacts job.campaign_id
          :: (job.segmentIds.map Effect.fetchSegment
            ++ [Effect.completeLoad job.campaign_id]) := by
    rw [processContactLoad, hE]
    simp
  refine ⟨htrace, ?_, ?_, ?_⟩
  · rw [htrace]
    simp [List.countP_cons, List.countP_append, isInsertEffect,
      countP_map_fetchSegment job.segmentIds isInsertEffect (fun _ => rfl)]
  · rw [htrace]
    simp [List.countP_cons, List.countP_append, isDeleteEffect,
      countP_map_fetchSegment job.segmentIds isDeleteEffect (fun _ => rfl)]
  · rw [htrace]
    simp [List.countP_cons, List.countP_append, isCompleteEffect,
      countP_map_fetchSegment job.segmentIds isCompleteEffect (fun _ => rfl)]

/-- Witness instantiating the C10 theorem on a job whose segments are all
empty. -/
theorem processContactLoad_empty_load_witness :
    processContactLoad { campaign_id := 5, segmentIds := [11, 12] } (fun _ => [])
      = [Effect.deleteContacts 5, Effect.fetchSegment 11, Effect.fetchSegment 12,
         Effect.completeLoad 5] := by
  have h := (processContactLoad_empty_load { campaign_id := 5, segmentIds := [11, 12] }
    (fun _ => []) (by rfl)).1
  rw [h]
  rfl

/-- An HTTP request to the gVIRS integration endpoint, after the
authentication middleware and query parsing ran: `clientchoicedata` is the
decoded JSON object as key-value pairs. -/
structure GvirsRequest where
  isAuthenticated : Bool
  query : String
  clientchoicedata : List (String × String)
deriving DecidableEq, Repr

/-- The JSON body written by the endpoint. -/
inductive GvirsBody
| emptyObj
| segments (segs : List String)
| segmentsWithError (segs : List String) (error : String)
deriving DecidableEq, Repr

/-- An HTTP response: status code and JSON body. -/
structure GvirsResponse where
  status : Nat
  body : GvirsBody
deriving DecidableEq, Repr

/-- JavaScript `"name" in obj` on the decoded object. -/
def hasKey (kvs : List (String × String)) (k : String) : Bool :=
  kvs.any (fun p => p.1 == k)

/-- JavaScript property read `obj.name` on the decoded object. -/
def getKey (kvs : List (String × String)) (k : String) : String :=
  ((kvs.find? (fun p => p.1 == k)).map (fun p => p.2)).getD ""

/-- Embedding of the GET handler registered by `addServerEndpoints`: 401
with an empty object when unauthenticated; `segments: []` when the query
is shorter than the minimum size or the client-choice data has no "name"
key (no search performed); otherwise the result of `searchSegments`, a
rejection being answered as `segments: []` together with the error. -/
def gvirsEndpointGet (minQuerySize : Nat)
    (searchSegments : String → String → Except String (List String))
    (req : GvirsRequest) : GvirsResponse :=
  if !req.isAuthenticated then { status := 401, body := .emptyObj }
  else if req.query.length < minQuerySize then { status := 200, body := .segments [] }
  else if !(hasKey req.clientchoicedata "name") then { status := 200, body := .segments [] }
  else
    match searchSegments req.query (getKey req.clientchoicedata "name") with
    | .ok segs => { status := 200, body := .segments segs }
    | .error e => { status := 200, body := .segmentsWithError [] e }

/-- C9: the gVIRS integration endpoint answers an unauthenticated request
with 401 and an empty object; an authenticated request with a too-short
query or no "name" key in the client-choice data with empty segments,
independently of the segment search; and a failed segment search with
empty segments plus the error. -/
theorem gvirs_endpoint_error_handling (minQuerySize : Nat)
    (search1 : String → String → Except String (List String)) (req : GvirsRequest) :
    (req.isAuthenticated = false →
      gvirsEndpointGet minQuerySize search1 req = { status := 401, body := .emptyObj })
    ∧ (req.isAuthenticated = true →
        (req.query.length < minQuerySize ∨ hasKey req.clientchoicedata "name" = false) →
        gvirsEndpointGet minQuerySize search1 req = { status := 200, body := .segments [] }
        ∧ ∀ search2 : String → String → Except String (List String),
            gvirsEndpointGet minQuerySize search2 req
              = gvirsEndpointGet minQuerySize search1 req)
    ∧ (∀ e : String, req.isAuthenticated = true → ¬ req.query.length < minQuerySize →
        hasKey req.clientchoicedata "name" = true →
        search1 req.query (getKey req.clientchoicedata "name") = .error e →
        gvirsEndpointGet minQuerySize search1 req
          = { status := 200, body := .segmentsWithError [] e }) := by
  refine ⟨?_, ?_, ?_⟩
  · intro hauth
    simp [gvirsEndpointGet, hauth]
  · intro hauth hor
    rcases hor with hlen | hkey
    · constructor
      · simp [gvirsEndpointGet, hauth, hlen]
      · intro search2
        simp [gvirsEndpointGet, hauth, hlen]
    · by_cases hlen : req.query.length < minQuerySize
      · constructor
        · simp [gvirsEndpointGet, hauth, hlen]
        · intro search2
          simp [gvirsEndpointGet, hauth, hlen]
      · constructor
        · simp [gvirsEndpointGet, hauth, hlen, hkey]
        · intro search2
          simp [gvirsEndpointGet, hauth, hlen, hkey]
  · intro e hauth hlen hkey hsearch
    simp [gvirsEndpointGet, hauth, hlen, hkey, hsearch]

/-- Witness instantiating the C9 theorem on concrete requests. -/
theorem gvirs_endpoint_error_handling_witness :
    gvirsEndpointGet 3 (fun _ _ => Except.error "boom")
        { isAuthenticated := false, query := "abcd", clientchoicedata := [("name", "org")] }
      = { status := 401, body := .emptyObj }
    ∧ gvirsEndpointGet 3 (fun _ _ => Except.error "boom")
        { isAuthenticated := true, query := "ab", clientchoicedata := [("name", "org")] }
      = { status := 200, body := .segments [] }
    ∧ gvirsEndpointGet 3 (fun _ _ => Except.error "boom")
        { isAuthenticated := true, query := "abcd", clientchoicedata := [("name", "org")] }
      = { status := 200, body := .segmentsWithError [] "boom" } := by
  refine ⟨?_, ?_, ?_⟩
  · exact (gvirs_endpoint_error_handling 3 (fun _ _ => Except.error "boom")
      { isAuthenticated := false, query := "abcd", clientchoicedata := [("name", "org")] }).1 rfl
  · exact ((gvirs_endpoint_error_handling 3 (fun _ _ => Except.error "boom")
      { isAuthenticated := true, query := "ab", clientchoicedata := [("name", "org")] }).2.1
      rfl (Or.inl (by decide))).1
  · exact (gvirs_endpoint_error_handling 3 (fun _ _ => Except.error "boom")
      { isAuthenticated := true, query := "abcd", clientchoicedata := [("name", "org")] }).2.2
      "boom" rfl (by decide) (by decide) rfl

end Spoke
